import Mathlib

/-!
Verification development for `mp3_cut.py`, a batch MP3 segment cutter.

The source program is shallowly embedded here:

* Python values appearing in a parsed JSON document are modelled by `JValue`
  (numbers as exact rationals; binary floating point is out of scope of the
  claims checked here).
* Python's builtin `float(str)` and `int(str)` are modelled character by
  character over ASCII inputs (`parseFloatChars`, `parseIntChars`): optional
  sign, digits with optional decimal point and exponent, PEP 515 underscore
  digit separators, and — for `float` — the case-insensitive `inf`,
  `infinity` and `nan` spellings, surrounded by optional whitespace.
  Float values are exact: a `PyFloat` is a rational, an infinity or a NaN,
  with Python's comparison semantics (nothing compares true against NaN)
  and mixed int/float addition.  Non-ASCII decimal digits and non-ASCII
  whitespace are outside the model.
* Python's `str()` rendering of numbers is kept abstract: it is a function
  parameter `fmt : PyFloat → String` of the execution environment
  (`World`).
* File-system queries and subprocess execution are oracles in `World`;
  console output and subprocess spawns are collected in a `Trace`.
* Exceptions are modelled with `Except PyErr`; `sys.exit` is a distinct
  outcome since `SystemExit` is not caught by `except Exception`.
-/

/- Batteries marks rational arithmetic `@[irreducible]`, which blocks
`decide`/`rfl` evaluation of the embedded functions at concrete inputs;
restore reducibility for this file. -/
attribute [local semireducible] Rat.mul Rat.add Rat.inv Rat.sub

namespace MP3Cut

/-! ## Characters, whitespace stripping -/

/-- Is `c` an ASCII decimal digit. -/
def isDig (c : Char) : Bool := 48 ≤ c.toNat && c.toNat ≤ 57

/-- Numeric value of an ASCII digit. -/
def digVal (c : Char) : Nat := c.toNat - 48

/-- Whitespace stripped by Python `str.strip()` (ASCII fragment). -/
def isPySpace (c : Char) : Bool :=
  c = ' ' || c = '\t' || c = '\n' || c = '\r' || c = '\x0b' || c = '\x0c'

/-- Model of Python `str.strip()`: drop leading and trailing whitespace. -/
def trimChars (cs : List Char) : List Char :=
  ((cs.dropWhile isPySpace).reverse.dropWhile isPySpace).reverse

/-! ## Model of Python `float()` / `int()` on strings -/

/-- Consume leading ASCII digits: returns (value, digit count, rest). -/
def takeDigits : List Char → Nat × Nat × List Char
  | [] => (0, 0, [])
  | c :: cs =>
    if isDig c then
      (digVal c * 10 ^ (takeDigits cs).2.1 + (takeDigits cs).1,
       (takeDigits cs).2.1 + 1,
       (takeDigits cs).2.2)
    else (0, 0, c :: cs)

/-- Consume an optional leading sign: returns (sign, rest). -/
def takeSign : List Char → Int × List Char
  | [] => (1, [])
  | c :: rest =>
    if c = '+' then (1, rest)
    else if c = '-' then (-1, rest)
    else (1, c :: rest)

/-- Parse the optional exponent suffix of a float literal and require the
end of input; `sg` and `mant` are the sign and mantissa already read. -/
def expPart (sg : Int) (mant : Rat) : List Char → Option Rat
  | [] => some (sg * mant)
  | c :: rest =>
    if c = 'e' ∨ c = 'E' then
      let es := (takeSign rest).1
      let rest1 := (takeSign rest).2
      if (takeDigits rest1).2.1 = 0 then none
      else if (takeDigits rest1).2.2 = [] then
        some (sg * mant *
          (if es = 1 then ((10 : Rat) ^ (takeDigits rest1).1)
           else ((10 : Rat) ^ (takeDigits rest1).1)⁻¹))
      else none
    else none

/-- Continue a float literal after the integer part `ip` (of `nI` digits):
optional fraction, then exponent, then end of input. -/
def afterIntPart (sg : Int) (ip nI : Nat) : List Char → Option Rat
  | [] => if nI = 0 then none else expPart sg (ip : Rat) []
  | c :: cs3 =>
    if c = '.' then
      if nI + (takeDigits cs3).2.1 = 0 then none
      else expPart sg ((ip : Rat) + ((takeDigits cs3).1 : Rat) / (10 : Rat) ^ (takeDigits cs3).2.1)
        (takeDigits cs3).2.2
    else if nI = 0 then none else expPart sg (ip : Rat) (c :: cs3)

/-- The value of a Python float, exactly: a finite rational, a signed
infinity, or a NaN. -/
inductive PyFloat where
  | finite (q : Rat)
  | inf (neg : Bool)
  | nan
deriving DecidableEq, Repr

instance (n : Nat) : OfNat PyFloat n := ⟨.finite (OfNat.ofNat n)⟩

instance : Neg PyFloat :=
  ⟨fun f => match f with
    | .finite q => .finite (-q)
    | .inf b => .inf (!b)
    | .nan => .nan⟩

/-- Python `<` on float values: NaN compares false against everything. -/
def pyLt : PyFloat → PyFloat → Bool
  | .nan, _ => false
  | _, .nan => false
  | .inf true, .inf true => false
  | .inf true, _ => true
  | .inf false, _ => false
  | .finite _, .inf false => true
  | .finite _, .inf true => false
  | .finite a, .finite b => decide (a < b)

/-- Python `<=` on float values: NaN compares false against everything. -/
def pyLe : PyFloat → PyFloat → Bool
  | .nan, _ => false
  | _, .nan => false
  | .inf true, _ => true
  | _, .inf false => true
  | .inf false, _ => false
  | .finite _, .inf true => false
  | .finite a, .finite b => decide (a ≤ b)

instance : LT PyFloat := ⟨fun a b => pyLt a b = true⟩

instance : LE PyFloat := ⟨fun a b => pyLe a b = true⟩

instance : DecidableRel (α := PyFloat) (· < ·) :=
  fun a b => inferInstanceAs (Decidable (pyLt a b = true))

instance : DecidableRel (α := PyFloat) (· ≤ ·) :=
  fun a b => inferInstanceAs (Decidable (pyLe a b = true))

/-- Python addition of an exact integer-derived rational and a float value
(`minutes * 60 + seconds`): infinities and NaN absorb. -/
instance : HAdd Rat PyFloat PyFloat :=
  ⟨fun a b => match b with
    | .finite q => .finite (a + q)
    | .inf s => .inf s
    | .nan => .nan⟩

/-- Case-insensitive comparison against a lowercase spelling. -/
def lowerEq (cs pat : List Char) : Bool := cs.map Char.toLower == pat

/-- Walk of `underscoresValid`: `prev` is the previous character. -/
def uVal (prev : Char) : List Char → Bool
  | [] => true
  | c :: rest =>
    if c = '_' then
      isDig prev && isDig (rest.headD ' ') && uVal '_' rest
    else uVal c rest

/-- PEP 515 check performed by Python's number parsing: every underscore
must be immediately preceded and followed by a digit. -/
def underscoresValid (cs : List Char) : Bool :=
  match cs with
  | [] => true
  | c :: rest => if c = '_' then false else uVal c rest

/-- Model of Python `float(s)` on a pre-stripped character list: after the
PEP 515 underscore check, underscores are stripped and the text is either
a signed case-insensitive `inf`/`infinity`/`nan` spelling or
`[sign] (digits [. digits] | . digits) [(e|E) [sign] digits]`. -/
def parseFloatChars (cs : List Char) : Option PyFloat :=
  if underscoresValid cs = true then
    let cs0 := cs.filter (fun c => !(c = '_'))
    let sg := (takeSign cs0).1
    let cs1 := (takeSign cs0).2
    if lowerEq cs1 ['i', 'n', 'f'] || lowerEq cs1 ['i', 'n', 'f', 'i', 'n', 'i', 't', 'y'] then
      some (.inf (sg == -1))
    else if lowerEq cs1 ['n', 'a', 'n'] then
      some .nan
    else
      (afterIntPart sg (takeDigits cs1).1 (takeDigits cs1).2.1
        (takeDigits cs1).2.2).map PyFloat.finite
  else none

/-- Model of Python `int(s)` on a pre-stripped character list: PEP 515
underscore check, then `[sign] digits` with underscores stripped. -/
def parseIntChars (cs : List Char) : Option Int :=
  if underscoresValid cs = true then
    let cs0 := cs.filter (fun c => !(c = '_'))
    let sg := (takeSign cs0).1
    let cs1 := (takeSign cs0).2
    if (takeDigits cs1).2.1 = 0 then none
    else if (takeDigits cs1).2.2 = [] then some (sg * (takeDigits cs1).1)
    else none
  else none

/-- Python `float(s)` (strips surrounding whitespace itself). -/
def pyFloat (cs : List Char) : Option PyFloat := parseFloatChars (trimChars cs)

/-- Python `int(s)` (strips surrounding whitespace itself). -/
def pyInt (cs : List Char) : Option Int := parseIntChars (trimChars cs)

/-- Model of Python `s.split(':')` on a character list. -/
def splitCh : List Char → List (List Char)
  | [] => [[]]
  | c :: cs =>
    if c = ':' then [] :: splitCh cs
    else (c :: (splitCh cs).headD []) :: (splitCh cs).tail

/-! ## JSON / Python values -/

/-- A value of a parsed JSON document as seen by the Python program.
Numbers are exact rationals. -/
inductive JValue where
  | str (s : String)
  | num (q : Rat)
  | bool (b : Bool)
  | null
  | arr (xs : List JValue)
  | obj (fields : List (String × JValue))

/-- Python exceptions relevant to the program. -/
inductive PyErr where
  | valueError (msg : String)
  | typeError (msg : String)
  | keyError (msg : String)
  | fileNotFound (msg : String)
  | jsonDecode (msg : String)
  | importError (msg : String)
  | runtimeError (msg : String)
  | osError (msg : String)
deriving DecidableEq, Repr

/-- The text of `str(e)` used when an exception is printed. -/
def pyErrStr : PyErr → String
  | .valueError m => m
  | .typeError m => m
  | .keyError m => m
  | .fileNotFound m => m
  | .jsonDecode m => m
  | .importError m => m
  | .runtimeError m => m
  | .osError m => m

mutual

/-- Model of Python `str()`/`repr()` rendering of a JSON-derived value.
Scalar numbers are rendered by the environment-supplied `fmt`; containers
render recursively with `repr` quoting of strings. -/
def pyStrOfJ (fmt : PyFloat → String) : JValue → String
  | .str s => s
  | .num q => fmt (.finite q)
  | .bool true => "True"
  | .bool false => "False"
  | .null => "None"
  | .arr xs => "[" ++ pyStrList fmt xs ++ "]"
  | .obj fs => "\x7b" ++ pyStrFields fmt fs ++ "\x7d"

/-- `repr` of a value appearing inside a container (strings get quotes). -/
def pyReprOfJ (fmt : PyFloat → String) : JValue → String
  | .str s => "\x27" ++ s ++ "\x27"
  | .num q => fmt (.finite q)
  | .bool true => "True"
  | .bool false => "False"
  | .null => "None"
  | .arr xs => "[" ++ pyStrList fmt xs ++ "]"
  | .obj fs => "\x7b" ++ pyStrFields fmt fs ++ "\x7d"

/-- Comma-separated rendering of list elements. -/
def pyStrList (fmt : PyFloat → String) : List JValue → String
  | [] => ""
  | [x] => pyReprOfJ fmt x
  | x :: xs => pyReprOfJ fmt x ++ ", " ++ pyStrList fmt xs

/-- Comma-separated rendering of dict entries. -/
def pyStrFields (fmt : PyFloat → String) : List (String × JValue) → String
  | [] => ""
  | [(k, v)] => "\x27" ++ k ++ "\x27: " ++ pyReprOfJ fmt v
  | (k, v) :: fs => "\x27" ++ k ++ "\x27: " ++ pyReprOfJ fmt v ++ ", " ++ pyStrFields fmt fs

end

/-! ## The time parser (`parse_time_to_seconds`) -/

/-- Model of `parse_time_to_seconds` from `mp3_cut.py`.  The source applies
`str()` to its argument, strips it, first tries `float()`, then splits on
`':'` into an `mm:ss` or `hh:mm:ss` form; everything else raises
`ValueError("Invalid time format: ...")`. -/
def parse_time_to_seconds (fmt : PyFloat → String) (v : JValue) : Except PyErr PyFloat :=
  let t := trimChars (pyStrOfJ fmt v).toList
  match parseFloatChars t with
  | some x => .ok x
  | none =>
    match splitCh t with
    | [a, b] =>
      match pyInt a, pyFloat b with
      | some m, some s => .ok ((m : Rat) * 60 + s)
      | _, _ => .error (.valueError ("Invalid time format: " ++ String.mk t))
    | [a, b, c] =>
      match pyInt a, pyInt b, pyFloat c with
      | some h, some m, some s =>
        .ok ((h : Rat) * 3600 + (m : Rat) * 60 + s)
      | _, _, _ => .error (.valueError ("Invalid time format: " ++ String.mk t))
    | _ => .error (.valueError ("Invalid time format: " ++ String.mk t))

/-! ## Python `in` and subscripting on JSON values -/

/-- Substring test on character lists (Python `needle in haystack` for
strings). -/
def containsSub (needle : List Char) : List Char → Bool
  | [] => needle.isEmpty
  | c :: cs => needle.isPrefixOf (c :: cs) || containsSub needle cs

/-- Model of Python `key in v`: key lookup on dicts, `==`-membership on
lists (a string equals only an equal string), substring test on strings;
`TypeError` on non-containers. -/
def pyContains (v : JValue) (key : String) : Except PyErr Bool :=
  match v with
  | .obj fs => .ok (fs.any (fun p => p.1 == key))
  | .arr xs => .ok (xs.any (fun x => match x with | .str s => s == key | _ => false))
  | .str s => .ok (containsSub key.toList s.toList)
  | _ => .error (.typeError "argument of type is not iterable")

/-- Dict lookup; a later duplicate key overrides an earlier one, as in
`json.load`. -/
def lookupLast (fs : List (String × JValue)) (key : String) : Option JValue :=
  match fs.reverse.find? (fun p => p.1 == key) with
  | some p => some p.2
  | none => none

/-- Model of Python `v[key]` with a string key. -/
def pySubscript (v : JValue) (key : String) : Except PyErr JValue :=
  match v with
  | .obj fs =>
    match lookupLast fs key with
    | some x => .ok x
    | none => .error (.keyError key)
  | .str _ => .error (.typeError "string indices must be integers")
  | .arr _ => .error (.typeError "list indices must be integers")
  | _ => .error (.typeError "object is not subscriptable")

/-! ## The config loader (`load_config`) -/

/-- Outcome of opening and JSON-decoding the config file; stands for the
file system read and `json.load` performed by `load_config`. -/
inductive ConfigFile where
  | missing
  | invalidJson (msg : String)
  | parsed (doc : JValue)

/-- The per-segment required-field loop of `load_config` (`for i, segment
in enumerate(config['segments'])`). -/
def validateSegs : Nat → List JValue → Except PyErr Unit
  | _, [] => .ok ()
  | i, seg :: rest =>
    match pyContains seg "start" with
    | .error e => .error e
    | .ok false => .error (.valueError ("Segment " ++ toString i ++ ": Missing \x27start\x27 field"))
    | .ok true =>
    match pyContains seg "end" with
    | .error e => .error e
    | .ok false => .error (.valueError ("Segment " ++ toString i ++ ": Missing \x27end\x27 field"))
    | .ok true =>
    match pyContains seg "output" with
    | .error e => .error e
    | .ok false => .error (.valueError ("Segment " ++ toString i ++ ": Missing \x27output\x27 field"))
    | .ok true => validateSegs (i + 1) rest

/-- Model of `load_config` from `mp3_cut.py`: existence check and JSON
decode (via the `ConfigFile` oracle), then the structural checks, in source
order.  Returns the config document unchanged on success. -/
def load_config (cf : ConfigFile) (configPath : String) : Except PyErr JValue :=
  match cf with
  | .missing => .error (.fileNotFound ("Config file not found: " ++ configPath))
  | .invalidJson m => .error (.jsonDecode m)
  | .parsed config =>
    match pyContains config "source" with
    | .error e => .error e
    | .ok false => .error (.valueError "Missing required field: \x27source\x27")
    | .ok true =>
    match pyContains config "segments" with
    | .error e => .error e
    | .ok false => .error (.valueError "Missing required field: \x27segments\x27")
    | .ok true =>
    match pySubscript config "segments" with
    | .error e => .error e
    | .ok segsV =>
      match segsV with
      | .arr segs =>
        if segs.length = 0 then .error (.valueError "\x27segments\x27 cannot be empty")
        else
          match validateSegs 0 segs with
          | .error e => .error e
          | .ok _ => .ok config
      | _ => .error (.valueError "\x27segments\x27 must be a list")

/-! ## Execution environment, console and subprocess trace -/

/-- One `subprocess.run` invocation: the argument vector and whether
stdout/stderr were captured (`subprocess.PIPE`) rather than inherited. -/
structure SubprocessCall where
  cmd : List String
  captureStdout : Bool
  captureStderr : Bool
deriving DecidableEq, Repr

/-- Observable events: console lines and subprocess spawns. -/
inductive Event where
  | print (line : String)
  | spawn (call : SubprocessCall)
deriving DecidableEq, Repr

/-- The sequence of observable events of a run. -/
abbrev Trace := List Event

/-- The subprocess invocations recorded in a trace. -/
def callsOf (tr : Trace) : List SubprocessCall :=
  tr.filterMap fun e => match e with | .spawn c => some c | .print _ => none

/-- Result of a subprocess that actually ran. -/
structure CompletedProcess where
  returncode : Int
  stdout : String
  stderr : String
deriving DecidableEq, Repr

/-- Outcome of attempting `subprocess.run`: either a completed process or
an exception while launching (e.g. a missing binary). -/
inductive ProcOutcome where
  | ran (r : CompletedProcess)
  | raiseExn (msg : String)
deriving DecidableEq, Repr

/-- The external environment: file-system existence, subprocess execution,
and Python's `str()` rendering of numbers. -/
structure World where
  fsExists : String → Bool
  runProcess : List String → ProcOutcome
  fmt : PyFloat → String

/-! ## The segment executor (`cut_segment`) -/

/-- The fixed FFmpeg argument template built by `cut_segment`. -/
def buildCmd (ffmpegExe source startStr endStr output : String) : List String :=
  [ffmpegExe, "-ss", startStr, "-to", endStr, "-i", source,
   "-map_metadata", "-1", "-vn", "-c", "copy", "-y", output]

/-- The progress line printed at the top of `cut_segment`. -/
def processingLine (fmt : PyFloat → String) (output : JValue) (start endT : PyFloat) : String :=
  "  Processing: " ++ pyStrOfJ fmt output ++ " (start=" ++ fmt start ++ "s, end=" ++ fmt endT ++ "s)"

/-- The `try` block of `cut_segment`: build the command, print the progress
line, run the subprocess (both streams captured) and test the return code.
A non-string output path makes `subprocess.run` raise `TypeError`; a launch
failure surfaces as an `OSError`-like exception.  Errors here are those the
enclosing `except` of `cut_segment` will catch. -/
def cut_segment_try (w : World) (ffmpegExe source : String) (start endT : PyFloat)
    (output : JValue) : Except PyErr Bool × Trace :=
  let header := Event.print (processingLine w.fmt output start endT)
  match output with
  | .str out =>
    let cmd := buildCmd ffmpegExe source (w.fmt start) (w.fmt endT) out
    match w.runProcess cmd with
    | .raiseExn msg => (.error (.osError msg), [header])
    | .ran r =>
      if r.returncode ≠ 0 then
        (.ok false, [header, .spawn ⟨cmd, true, true⟩,
          .print ("  ✗ Failed to cut segment: " ++ out),
          .print ("    Error: " ++ r.stderr)])
      else
        (.ok true, [header, .spawn ⟨cmd, true, true⟩,
          .print ("  ✓ Successfully created: " ++ out)])
  | _ => (.error (.typeError "expected str, bytes or os.PathLike object"), [header])

/-- Model of `cut_segment` from `mp3_cut.py`: the `try` block above with a
catch-all `except Exception` that prints the exception and returns `False`. -/
def cut_segment (w : World) (ffmpegExe source : String) (start endT : PyFloat)
    (output : JValue) : Bool × Trace :=
  match cut_segment_try w ffmpegExe source start endT output with
  | (.ok b, tr) => (b, tr)
  | (.error e, tr) => (false, tr ++ [.print ("  ✗ Exception occurred: " ++ pyErrStr e)])

/-! ## The batch orchestrator (`process_segments`) -/

/-- The `try` block of one iteration of the segment loop: parse `start` and
`end`, range-check, and call `cut_segment`.  Any error escaping here is one
the iteration's `except` clauses will catch. -/
def segIterBody (w : World) (ffmpegExe source : String) (seg : JValue) :
    Except PyErr (Bool × Trace) :=
  match pySubscript seg "start" with
  | .error e => .error e
  | .ok sv =>
  match parse_time_to_seconds w.fmt sv with
  | .error e => .error e
  | .ok startSeconds =>
  match pySubscript seg "end" with
  | .error e => .error e
  | .ok ev =>
  match parse_time_to_seconds w.fmt ev with
  | .error e => .error e
  | .ok endSeconds =>
  if endSeconds ≤ startSeconds then
    .ok (false, [.print ("  ✗ Invalid time range: start (" ++ w.fmt startSeconds
        ++ "s) >= end (" ++ w.fmt endSeconds ++ "s)")])
  else
    match pySubscript seg "output" with
    | .error e => .error e
    | .ok outV => .ok (cut_segment w ffmpegExe source startSeconds endSeconds outV)

/-- One iteration of the segment loop including its `except ValueError` and
`except Exception` handlers: always yields a success flag and a trace. -/
def segStep (w : World) (ffmpegExe source : String) (seg : JValue) : Bool × Trace :=
  match segIterBody w ffmpegExe source seg with
  | .ok res => res
  | .error (.valueError m) => (false, [.print ("  ✗ Time parse error: " ++ m)])
  | .error e => (false, [.print ("  ✗ Unexpected error: " ++ pyErrStr e)])

/-- The `for i, segment in enumerate(segments, 1)` loop: returns the
success count, the failure count and the trace. -/
def processLoop (w : World) (ffmpegExe source : String) (total : Nat) :
    Nat → List JValue → Nat × Nat × Trace
  | _, [] => (0, 0, [])
  | i, seg :: rest =>
    let step := segStep w ffmpegExe source seg
    let r := processLoop w ffmpegExe source total (i + 1) rest
    ((if step.1 then 1 else 0) + r.1,
     (if step.1 then 0 else 1) + r.2.1,
     (Event.print ("[" ++ toString i ++ "/" ++ toString total ++ "]")
       :: step.2 ++ [Event.print ""]) ++ r.2.2)

/-- Outcome of `process_segments`: normal completion with the two counters,
`sys.exit` (`SystemExit` is not caught by `except Exception` in `main`), or
an uncaught exception. -/
inductive ProcResult where
  | completed (succeeded failed : Nat)
  | sysExit (code : Int)
  | raised (e : PyErr)
deriving DecidableEq, Repr

/-- The separator line of the final summary. -/
def sepLine : String := String.mk (List.replicate 50 '=')

/-- Model of `process_segments` from `mp3_cut.py`: read `source` and
`segments` from the config, pre-flight existence check with `sys.exit(1)`,
then the per-segment loop and the summary.  In the program `segments` is
always a list here (`load_config` validated it); a non-list value is folded
to the `TypeError` Python would raise when it is first used. -/
def process_segments (w : World) (config : JValue) (ffmpegExe : String) :
    ProcResult × Trace :=
  match pySubscript config "source" with
  | .error e => (.raised e, [])
  | .ok sourceV =>
  match pySubscript config "segments" with
  | .error e => (.raised e, [])
  | .ok segsV =>
  match sourceV with
  | .str source =>
    if w.fsExists source = false then
      (.sysExit 1, [.print ("Error: Source file not found: " ++ source)])
    else
      match segsV with
      | .arr segs =>
        let r := processLoop w ffmpegExe source segs.length 1 segs
        (.completed r.1 r.2.1,
         [Event.print ("Source: " ++ source),
          Event.print ("Total segments: " ++ toString segs.length ++ "\n")]
         ++ r.2.2
         ++ [Event.print sepLine,
             Event.print ("Completed: " ++ toString r.1 ++ " succeeded, "
               ++ toString r.2.1 ++ " failed"),
             Event.print sepLine])
      | _ =>
        (.raised (.typeError "segments value is not a list"),
         [Event.print ("Source: " ++ source)])
  | _ => (.raised (.typeError "argument should be a str or an os.PathLike object"), [])

/-! ## FFmpeg resolution and `main` -/

/-- Outcome of the `imageio_ffmpeg` collaborator used by
`get_ffmpeg_executable`. -/
inductive FfmpegResolver where
  | importMissing
  | resolved (path : String)
deriving DecidableEq, Repr

/-- Model of `get_ffmpeg_executable`: `ImportError` when the package is
missing, `RuntimeError` when the resolved path is falsy (empty). -/
def get_ffmpeg_executable : FfmpegResolver → Except PyErr String
  | .importMissing =>
    .error (.importError
      "imageio-ffmpeg is not installed. Please install it with: pip install imageio-ffmpeg")
  | .resolved p =>
    if p = "" then .error (.runtimeError "Failed to get FFmpeg executable from imageio-ffmpeg")
    else .ok p

/-- Everything `main` observes: `sys.argv` (program name included), the
config file, the FFmpeg resolver and the execution environment. -/
structure MainWorld where
  argv : List String
  configFile : ConfigFile
  ffmpeg : FfmpegResolver
  world : World

/-- The diagnostic printed by the matching `except` clause of `main`;
clauses are tried in source order, everything else hits `except Exception`. -/
def errLine : PyErr → String
  | .fileNotFound m => "Error: " ++ m
  | .jsonDecode m => "Error: Invalid JSON format: " ++ m
  | .valueError m => "Error: " ++ m
  | .importError m => "Error: " ++ m
  | e => "Error: Unexpected error occurred: " ++ pyErrStr e

/-- Model of `main` from `mp3_cut.py`: argument check, config load, FFmpeg
resolution, segment processing; returns the process exit code (0 when the
script falls off the end of `main`) and the trace. -/
def main (mw : MainWorld) : Int × Trace :=
  if mw.argv.length ≠ 2 then
    (1, [.print "Usage: mp3_cut.py <config.json>"])
  else
    let configPath := (mw.argv.get? 1).getD ""
    let pre : Trace := [.print "Loading configuration..."]
    match load_config mw.configFile configPath with
    | .error e => (1, pre ++ [.print (errLine e)])
    | .ok config =>
      let pre2 := pre ++ [Event.print "Getting FFmpeg executable..."]
      match get_ffmpeg_executable mw.ffmpeg with
      | .error e => (1, pre2 ++ [.print (errLine e)])
      | .ok ffmpegExe =>
        let pre3 := pre2 ++ [Event.print ("FFmpeg: " ++ ffmpegExe ++ "\n")]
        match process_segments mw.world config ffmpegExe with
        | (.completed _ _, tr) => (0, pre3 ++ tr)
        | (.sysExit c, tr) => (c, pre3 ++ tr)
        | (.raised e, tr) => (1, pre3 ++ tr ++ [.print (errLine e)])

/-! ## Decidable equality of `Except` results, for concrete evaluation -/

instance {ε α : Type} [DecidableEq ε] [DecidableEq α] : DecidableEq (Except ε α) := fun a b =>
  match a, b with
  | .ok x, .ok y => if h : x = y then .isTrue (by rw [h]) else .isFalse (by simp [h])
  | .error x, .error y => if h : x = y then .isTrue (by rw [h]) else .isFalse (by simp [h])
  | .ok _, .error _ => .isFalse (by simp)
  | .error _, .ok _ => .isFalse (by simp)

/-! ## Lemmas about the numeric-literal scanners -/

lemma colon_mem_takeDigits {cs : List Char} (h : ':' ∈ cs) : ':' ∈ (takeDigits cs).2.2 := by
  induction cs with
  | nil => simp at h
  | cons c cs ih =>
    by_cases hd : isDig c = true
    · rw [List.mem_cons] at h
      rcases h with rfl | h
      · exact absurd hd (by decide)
      · simpa [takeDigits, hd] using ih h
    · simpa [takeDigits, hd] using h

lemma colon_mem_takeSign {cs : List Char} (h : ':' ∈ cs) : ':' ∈ (takeSign cs).2 := by
  cases cs with
  | nil => simp at h
  | cons c cs =>
    rw [List.mem_cons] at h
    by_cases h1 : c = '+'
    · rcases h with rfl | h
      · exact absurd h1 (by decide)
      · simpa [takeSign, h1] using h
    · by_cases h2 : c = '-'
      · rcases h with rfl | h
        · exact absurd h2 (by decide)
        · simpa [takeSign, h1, h2] using h
      · have hm : ':' ∈ c :: cs := List.mem_cons.mpr h
        simpa [takeSign, h1, h2] using hm

lemma expPart_none_of_colon {sg : Int} {m : Rat} {cs : List Char} (h : ':' ∈ cs) :
    expPart sg m cs = none := by
  cases cs with
  | nil => simp at h
  | cons c rest =>
    rw [List.mem_cons] at h
    simp only [expPart]
    by_cases hc : c = 'e' ∨ c = 'E'
    · have hcolon : ':' ∈ rest := by
        rcases h with rfl | h
        · rcases hc with hc | hc <;> exact absurd hc (by decide)
        · exact h
      have h1 := colon_mem_takeDigits (colon_mem_takeSign hcolon)
      have hne : (takeDigits (takeSign rest).2).2.2 ≠ [] := by
        intro he
        rw [he] at h1
        simp at h1
      rw [if_pos hc]
      by_cases hz : (takeDigits (takeSign rest).2).2.1 = 0
      · rw [if_pos hz]
      · rw [if_neg hz, if_neg hne]
    · rw [if_neg hc]

lemma afterIntPart_none_of_colon {sg : Int} {ip nI : Nat} {cs : List Char} (h : ':' ∈ cs) :
    afterIntPart sg ip nI cs = none := by
  cases cs with
  | nil => simp at h
  | cons c cs3 =>
    rw [List.mem_cons] at h
    simp only [afterIntPart]
    by_cases hdot : c = '.'
    · have hcolon : ':' ∈ cs3 := by
        rcases h with rfl | h
        · exact absurd hdot (by decide)
        · exact h
      have h1 := colon_mem_takeDigits hcolon
      rw [if_pos hdot]
      by_cases hz : nI + (takeDigits cs3).2.1 = 0
      · rw [if_pos hz]
      · rw [if_neg hz]
        exact expPart_none_of_colon h1
    · rw [if_neg hdot]
      by_cases hz : nI = 0
      · rw [if_pos hz]
      · rw [if_neg hz]
        exact expPart_none_of_colon (List.mem_cons.mpr h)

lemma lowerEq_false_of_colon (pat : List Char) {cs : List Char} (h : ':' ∈ cs)
    (hp : ':' ∉ pat) : lowerEq cs pat = false := by
  cases h0 : lowerEq cs pat
  · rfl
  · exfalso
    apply hp
    have heq : cs.map Char.toLower = pat := by
      unfold lowerEq at h0
      simpa using h0
    rw [← heq]
    have hmap : Char.toLower ':' ∈ cs.map Char.toLower := List.mem_map_of_mem Char.toLower h
    simpa using hmap

lemma parseFloatChars_none_of_colon {cs : List Char} (h : ':' ∈ cs) :
    parseFloatChars cs = none := by
  unfold parseFloatChars
  by_cases hu : underscoresValid cs = true
  · rw [if_pos hu]
    have h0 : ':' ∈ cs.filter (fun c => !(c = '_')) := by
      rw [List.mem_filter]
      exact ⟨h, by decide⟩
    have h1 : ':' ∈ (takeSign (cs.filter (fun c => !(c = '_')))).2 := colon_mem_takeSign h0
    dsimp only
    rw [lowerEq_false_of_colon ['i', 'n', 'f'] h1 (by decide),
        lowerEq_false_of_colon ['i', 'n', 'f', 'i', 'n', 'i', 't', 'y'] h1 (by decide),
        lowerEq_false_of_colon ['n', 'a', 'n'] h1 (by decide)]
    rw [afterIntPart_none_of_colon (colon_mem_takeDigits h1)]
    simp
  · rw [if_neg hu]

/-! ## Lemmas about `splitCh` -/

lemma splitCh_ne_nil (cs : List Char) : splitCh cs ≠ [] := by
  cases cs with
  | nil => simp [splitCh]
  | cons c cs =>
    by_cases h : c = ':'
    · simp [splitCh, h]
    · simp [splitCh, h]

lemma colon_mem_of_splitCh_two {cs : List Char} (h : 2 ≤ (splitCh cs).length) : ':' ∈ cs := by
  induction cs with
  | nil => simp [splitCh] at h
  | cons c cs ih =>
    by_cases hc : c = ':'
    · rw [hc]
      exact List.mem_cons_self _ _
    · have hne := splitCh_ne_nil cs
      have hlen : (splitCh cs).length = (splitCh cs).tail.length + 1 := by
        cases hsc : splitCh cs with
        | nil => exact absurd hsc hne
        | cons a l => simp
      have h2 : 2 ≤ (splitCh cs).length := by
        simp only [splitCh, hc, if_false, List.length_cons] at h
        omega
      exact List.mem_cons.mpr (Or.inr (ih h2))

/-! ## Claims about the time parser -/

/-- C2: Time-notation semantics of `parse_time_to_seconds`: a bare numeric
string parses as `float(s)`; `mm:ss` with integer minutes and numeric
seconds gives `minutes*60 + seconds`; `hh:mm:ss` gives
`hours*3600 + minutes*60 + seconds`; `"1:30" = 90`, `"1:02:03" = 3723`,
`"90" = 90`; surrounding whitespace is stripped before matching. -/
theorem parse_time_semantics :
    (∀ (fmt : PyFloat → String) (s : String) (v : PyFloat),
        parseFloatChars (trimChars s.toList) = some v →
        parse_time_to_seconds fmt (.str s) = .ok v)
  ∧ (∀ (fmt : PyFloat → String) (s : String) (a b : List Char) (m : Int) (sec : PyFloat),
        splitCh (trimChars s.toList) = [a, b] →
        pyInt a = some m → pyFloat b = some sec →
        parse_time_to_seconds fmt (.str s) = .ok ((m : Rat) * 60 + sec))
  ∧ (∀ (fmt : PyFloat → String) (s : String) (a b c : List Char) (hh mm : Int) (sec : PyFloat),
        splitCh (trimChars s.toList) = [a, b, c] →
        pyInt a = some hh → pyInt b = some mm → pyFloat c = some sec →
        parse_time_to_seconds fmt (.str s) = .ok ((hh : Rat) * 3600 + (mm : Rat) * 60 + sec))
  ∧ (∀ fmt, parse_time_to_seconds fmt (.str "1:30") = .ok 90)
  ∧ (∀ fmt, parse_time_to_seconds fmt (.str "1:02:03") = .ok 3723)
  ∧ (∀ fmt, parse_time_to_seconds fmt (.str "90") = .ok 90)
  ∧ (∀ (fmt : PyFloat → String) (s : String),
        parse_time_to_seconds fmt (.str (" " ++ s)) = parse_time_to_seconds fmt (.str s)
        ∧ parse_time_to_seconds fmt (.str (s ++ " ")) = parse_time_to_seconds fmt (.str s)) := by
  refine ⟨?_, ?_, ?_, ?_, ?_, ?_, ?_⟩
  · intro fmt s v h
    simp only [String.toList] at h
    simp [parse_time_to_seconds, pyStrOfJ, h]
  · intro fmt s a b m sec hsplit hint hfl
    have hcolon : ':' ∈ trimChars s.toList :=
      colon_mem_of_splitCh_two (by rw [hsplit]; simp)
    have hfe := parseFloatChars_none_of_colon hcolon
    simp only [String.toList] at hsplit hfe
    simp [parse_time_to_seconds, pyStrOfJ, hfe, hsplit, hint, hfl]
  · intro fmt s a b c hh mm sec hsplit hint1 hint2 hfl
    have hcolon : ':' ∈ trimChars s.toList :=
      colon_mem_of_splitCh_two (by rw [hsplit]; simp)
    have hfe := parseFloatChars_none_of_colon hcolon
    simp only [String.toList] at hsplit hfe
    simp [parse_time_to_seconds, pyStrOfJ, hfe, hsplit, hint1, hint2, hfl]
  · intro fmt
    show parse_time_to_seconds (fun _ => "") (.str "1:30") = .ok 90
    decide
  · intro fmt
    show parse_time_to_seconds (fun _ => "") (.str "1:02:03") = .ok 3723
    decide
  · intro fmt
    show parse_time_to_seconds (fun _ => "") (.str "90") = .ok 90
    decide
  · intro fmt s
    constructor
    · have ht : trimChars ((" " ++ s).toList) = trimChars s.toList := by
        show trimChars (' ' :: s.toList) = trimChars s.toList
        simp [trimChars, List.dropWhile_cons, show isPySpace ' ' = true from rfl]
      simp only [parse_time_to_seconds, pyStrOfJ]
      rw [ht]
    · have ht : trimChars ((s ++ " ").toList) = trimChars s.toList := by
        show trimChars (s.toList ++ [' ']) = trimChars s.toList
        unfold trimChars
        rw [List.dropWhile_append]
        by_cases hemp : (s.toList.dropWhile isPySpace).isEmpty = true
        · rw [if_pos hemp]
          have h0 : s.toList.dropWhile isPySpace = [] := by
            simpa [List.isEmpty_iff] using hemp
          rw [h0]
          rfl
        · rw [if_neg hemp, List.reverse_append]
          simp only [List.reverse_cons, List.reverse_nil, List.nil_append,
            List.singleton_append]
          rw [List.dropWhile_cons, if_pos (show isPySpace ' ' = true from rfl)]
      simp only [parse_time_to_seconds, pyStrOfJ]
      rw [ht]

/-- Witness for `parse_time_semantics` at concrete inputs, including the
underscore-separator and infinity spellings accepted by `float()`. -/
theorem parse_time_semantics_witness :
    parse_time_to_seconds (fun _ => "") (.str " 90.5") = .ok (.finite ((181 : Rat) / 2))
  ∧ parse_time_to_seconds (fun _ => "") (.str "2:30") = .ok ((2 : Rat) * 60 + PyFloat.finite 30)
  ∧ parse_time_to_seconds (fun _ => "") (.str "1:02:03.5")
      = .ok ((1 : Rat) * 3600 + (2 : Rat) * 60 + PyFloat.finite ((7 : Rat) / 2))
  ∧ parse_time_to_seconds (fun _ => "") (.str "1_0") = .ok (.finite 10)
  ∧ parse_time_to_seconds (fun _ => "") (.str "-Infinity") = .ok (.inf true) :=
  ⟨parse_time_semantics.1 (fun _ => "") " 90.5" (.finite ((181 : Rat) / 2)) (by decide),
   parse_time_semantics.2.1 (fun _ => "") "2:30" ['2'] ['3', '0'] 2 (.finite 30)
     (by decide) (by decide) (by decide),
   parse_time_semantics.2.2.1 (fun _ => "") "1:02:03.5" ['1'] ['0', '2'] ['0', '3', '.', '5']
     1 2 (.finite ((7 : Rat) / 2)) (by decide) (by decide) (by decide) (by decide),
   parse_time_semantics.1 (fun _ => "") "1_0" (.finite 10) (by decide),
   parse_time_semantics.1 (fun _ => "") "-Infinity" (.inf true) (by decide)⟩

/-- Acceptance by the three field layouts under the (modelled) Python
conversions: the whole text by `float()`, or `int()` and `float()` over
two colon-separated fields, or `int()`, `int()` and `float()` over three. -/
def acceptedByFieldConversions (s : String) : Bool :=
  let t := trimChars s.toList
  (parseFloatChars t).isSome ||
  (match splitCh t with
   | [a, b] => (pyInt a).isSome && (pyFloat b).isSome
   | [a, b, c] => (pyInt a).isSome && (pyInt b).isSome && (pyFloat c).isSome
   | _ => false)

/-- The specification's `bare numeric literal (integer or decimal)`,
following the spec's words (read generously to include an exponent):
optional sign and digits with an optional decimal point — no underscore
grouping, no infinity/nan spellings. -/
def specNumericLit (cs : List Char) : Bool :=
  (afterIntPart (takeSign cs).1 (takeDigits (takeSign cs).2).1 (takeDigits (takeSign cs).2).2.1
    (takeDigits (takeSign cs).2).2.2).isSome

/-- The specification's `minutes (integer)` sub-field: optional sign and
digits. -/
def specIntLit (cs : List Char) : Bool :=
  decide ((takeDigits (takeSign cs).2).2.1 ≠ 0 ∧ (takeDigits (takeSign cs).2).2.2 = [])

/-- The three accepted notations as the specification words them: a bare
numeric literal, or `mm:ss` with integer minutes and integer-or-decimal
seconds, or `hh:mm:ss` likewise (sub-fields stripped of whitespace, as the
conversions strip). -/
def specAcceptedNotation (s : String) : Bool :=
  let t := trimChars s.toList
  specNumericLit t ||
  (match splitCh t with
   | [a, b] => specIntLit (trimChars a) && specNumericLit (trimChars b)
   | [a, b, c] =>
     specIntLit (trimChars a) && specIntLit (trimChars b) && specNumericLit (trimChars c)
   | _ => false)

/-- C3 counterexample: `"inf"` and `"1:inf"` match none of the three
notations of the specification — `"inf"` is not a numeric literal and
`"inf"` is not an integer-or-decimal seconds sub-field — yet
`parse_time_to_seconds` accepts both (Python `float()` accepts the
infinity spellings), so the parser does not fail exactly on the complement
of the three notations. -/
theorem parse_time_spec_notations_counterexample :
    specAcceptedNotation "inf" = false
  ∧ parse_time_to_seconds (fun _ => "") (.str "inf") = .ok (.inf false)
  ∧ specAcceptedNotation "1:inf" = false
  ∧ parse_time_to_seconds (fun _ => "") (.str "1:inf") = .ok (.inf false) :=
  ⟨by decide, by decide, by decide, by decide⟩

/-- C3 (amended): `parse_time_to_seconds` fails, with the
`Invalid time format` `ValueError`, exactly when the (ASCII) input is
accepted by none of the three field layouts under Python's `float()` and
`int()` conversions — an acceptance strictly wider than the spec's
integer-or-decimal literals, since `float()` also accepts `inf`/`nan`
spellings and underscore-grouped digits (e.g. `"inf"` and `"1:inf"`
parse successfully); `""`, `"a:b"` and `"1:2:3:4"` all still fail with
`InvalidTimeFormat`. -/
theorem parse_time_fails_iff_not_accepted :
    (∀ (fmt : PyFloat → String) (s : String),
        parse_time_to_seconds fmt (.str s)
            = .error (.valueError ("Invalid time format: " ++ String.mk (trimChars s.toList)))
          ↔ acceptedByFieldConversions s = false)
  ∧ parse_time_to_seconds (fun _ => "") (.str "") = .error (.valueError "Invalid time format: ")
  ∧ parse_time_to_seconds (fun _ => "") (.str "a:b")
      = .error (.valueError "Invalid time format: a:b")
  ∧ parse_time_to_seconds (fun _ => "") (.str "1:2:3:4")
      = .error (.valueError "Invalid time format: 1:2:3:4") := by
  refine ⟨?_, by decide, by decide, by decide⟩
  intro fmt s
  simp only [parse_time_to_seconds, acceptedByFieldConversions, pyStrOfJ]
  cases hf : parseFloatChars (trimChars s.toList) with
  | some v => simp
  | none =>
    simp only [Option.isSome_none, Bool.false_or]
    rcases hsp : splitCh (trimChars s.toList) with _ | ⟨a, _ | ⟨b, _ | ⟨c, _ | d⟩⟩⟩
    · simp
    · simp
    · cases hia : pyInt a with
      | none => simp [hia]
      | some m =>
        cases hfb : pyFloat b with
        | none => simp [hia, hfb]
        | some sec => simp [hia, hfb]
    · cases hia : pyInt a with
      | none => simp [hia]
      | some h1 =>
        cases hib : pyInt b with
        | none => simp [hia, hib]
        | some m1 =>
          cases hfc : pyFloat c with
          | none => simp [hia, hib, hfc]
          | some sec => simp [hia, hib, hfc]
    · simp

/-! ## Claims about the config loader -/

lemma any_of_lookupLast {fs : List (String × JValue)} {k : String} {v : JValue}
    (h : lookupLast fs k = some v) : fs.any (fun q => q.1 == k) = true := by
  unfold lookupLast at h
  cases hf : fs.reverse.find? (fun q => q.1 == k) with
  | none => rw [hf] at h; simp at h
  | some q =>
    have hp := List.find?_some hf
    rw [List.any_eq_true]
    exact ⟨q, List.mem_reverse.mp (List.mem_of_find?_eq_some hf), by simpa using hp⟩

/-- A segment entry that passes all three required-field checks. -/
def segFieldsOk (seg : JValue) : Bool :=
  decide (pyContains seg "start" = .ok true)
    && decide (pyContains seg "end" = .ok true)
    && decide (pyContains seg "output" = .ok true)

lemma validateSegs_append {pre : List JValue} (rest : List JValue) (i : Nat)
    (h : ∀ x ∈ pre, segFieldsOk x = true) :
    validateSegs i (pre ++ rest) = validateSegs (i + pre.length) rest := by
  induction pre generalizing i with
  | nil => simp
  | cons x pre ih =>
    have hx := h x (List.mem_cons_self _ _)
    simp only [segFieldsOk, Bool.and_eq_true, decide_eq_true_eq] at hx
    obtain ⟨⟨h1, h2⟩, h3⟩ := hx
    simp only [List.cons_append, validateSegs, h1, h2, h3, List.append_eq]
    rw [ih (i + 1) (fun y hy => h y (List.mem_cons.mpr (Or.inr hy)))]
    simp only [List.length_cons]
    congr 1
    omega

/-- C4: structural validation in `load_config`: a document missing `source`
or `segments` fails with the corresponding missing-field error; a
non-sequence `segments` fails with the type error; an empty `segments` list
fails with the emptiness error; a segment entry missing `start`, `end` or
`output` fails with an error naming the field and the entry's zero-based
index; and any config-load failure ends the run with exit code 1 and no
subprocess invocation. -/
theorem load_config_structural_validation :
    (∀ (p : String) (fs : List (String × JValue)),
        fs.any (fun q => q.1 == "source") = false →
        load_config (.parsed (.obj fs)) p
          = .error (.valueError "Missing required field: \x27source\x27"))
  ∧ (∀ (p : String) (fs : List (String × JValue)),
        fs.any (fun q => q.1 == "source") = true →
        fs.any (fun q => q.1 == "segments") = false →
        load_config (.parsed (.obj fs)) p
          = .error (.valueError "Missing required field: \x27segments\x27"))
  ∧ (∀ (p : String) (fs g : List (String × JValue)),
        fs.any (fun q => q.1 == "source") = true →
        lookupLast fs "segments" = some (.obj g) →
        load_config (.parsed (.obj fs)) p
          = .error (.valueError "\x27segments\x27 must be a list"))
  ∧ (∀ (p : String) (fs : List (String × JValue)),
        fs.any (fun q => q.1 == "source") = true →
        lookupLast fs "segments" = some (.arr []) →
        load_config (.parsed (.obj fs)) p
          = .error (.valueError "\x27segments\x27 cannot be empty"))
  ∧ (∀ (p : String) (fs : List (String × JValue)) (pre : List JValue)
        (seg : JValue) (post : List JValue),
        fs.any (fun q => q.1 == "source") = true →
        lookupLast fs "segments" = some (.arr (pre ++ seg :: post)) →
        (∀ x ∈ pre, segFieldsOk x = true) →
        (pyContains seg "start" = .ok false →
          load_config (.parsed (.obj fs)) p = .error (.valueError
            ("Segment " ++ toString pre.length ++ ": Missing \x27start\x27 field")))
        ∧ (pyContains seg "start" = .ok true → pyContains seg "end" = .ok false →
          load_config (.parsed (.obj fs)) p = .error (.valueError
            ("Segment " ++ toString pre.length ++ ": Missing \x27end\x27 field")))
        ∧ (pyContains seg "start" = .ok true → pyContains seg "end" = .ok true →
          pyContains seg "output" = .ok false →
          load_config (.parsed (.obj fs)) p = .error (.valueError
            ("Segment " ++ toString pre.length ++ ": Missing \x27output\x27 field"))))
  ∧ (∀ (mw : MainWorld) (e : PyErr),
        load_config mw.configFile ((mw.argv.get? 1).getD "") = .error e →
        callsOf (main mw).2 = [] ∧ (main mw).1 = 1) := by
  have hsub : ∀ (fs : List (String × JValue)) (v : JValue),
      lookupLast fs "segments" = some v → pySubscript (.obj fs) "segments" = .ok v := by
    intro fs v h
    simp [pySubscript, h]
  refine ⟨?_, ?_, ?_, ?_, ?_, ?_⟩
  · intro p fs h
    simp [load_config, pyContains, h]
  · intro p fs h1 h2
    simp [load_config, pyContains, h1, h2]
  · intro p fs g h1 h2
    simp [load_config, pyContains, h1, any_of_lookupLast h2, hsub fs _ h2]
  · intro p fs h1 h2
    simp [load_config, pyContains, h1, any_of_lookupLast h2, hsub fs _ h2]
  · intro p fs pre seg post h1 h2 hpre
    have hseg : fs.any (fun q => q.1 == "segments") = true := any_of_lookupLast h2
    have hlen : ¬((pre ++ seg :: post).length = 0) := by simp
    have hval : validateSegs 0 (pre ++ seg :: post) = validateSegs pre.length (seg :: post) := by
      rw [validateSegs_append _ 0 hpre]
      simp
    have hcs : pyContains (JValue.obj fs) "source" = .ok true := by simp [pyContains, h1]
    have hcg : pyContains (JValue.obj fs) "segments" = .ok true := by simp [pyContains, hseg]
    refine ⟨?_, ?_, ?_⟩
    · intro hs
      simp [load_config, hcs, hcg, hsub fs _ h2, hlen, hval, validateSegs, hs]
    · intro hs he
      simp [load_config, hcs, hcg, hsub fs _ h2, hlen, hval, validateSegs, hs, he]
    · intro hs he ho
      simp [load_config, hcs, hcg, hsub fs _ h2, hlen, hval, validateSegs, hs, he, ho]
  · intro mw e h
    by_cases hargv : mw.argv.length ≠ 2
    · simp [main, hargv, callsOf]
    · simp only [main, if_neg hargv, h]
      simp [callsOf]

/-- Witness for `load_config_structural_validation` at concrete documents. -/
theorem load_config_structural_validation_witness :
    load_config (.parsed (.obj [])) "c.json"
      = .error (.valueError "Missing required field: \x27source\x27")
  ∧ load_config (.parsed (.obj [("source", .str "in.mp3")])) "c.json"
      = .error (.valueError "Missing required field: \x27segments\x27")
  ∧ load_config (.parsed (.obj [("source", .str "in.mp3"), ("segments", .obj [])])) "c.json"
      = .error (.valueError "\x27segments\x27 must be a list")
  ∧ load_config (.parsed (.obj [("source", .str "in.mp3"), ("segments", .arr [])])) "c.json"
      = .error (.valueError "\x27segments\x27 cannot be empty")
  ∧ load_config (.parsed (.obj [("source", .str "in.mp3"),
        ("segments", .arr [.obj [("start", .str "0"), ("end", .str "1"), ("output", .str "a")],
                           .obj [("start", .str "0"), ("end", .str "1")]])])) "c.json"
      = .error (.valueError ("Segment " ++ toString (1 : Nat) ++ ": Missing \x27output\x27 field"))
  ∧ callsOf (main ⟨["mp3_cut.py", "c.json"], .missing, .resolved "ff",
        ⟨fun _ => true, fun _ => .ran ⟨0, "", ""⟩, fun _ => ""⟩⟩).2 = []
  ∧ (main ⟨["mp3_cut.py", "c.json"], .missing, .resolved "ff",
        ⟨fun _ => true, fun _ => .ran ⟨0, "", ""⟩, fun _ => ""⟩⟩).1 = 1 := by
  refine ⟨?_, ?_, ?_, ?_, ?_, ?_, ?_⟩
  · exact load_config_structural_validation.1 "c.json" [] (by decide)
  · exact load_config_structural_validation.2.1 "c.json" _ (by decide) (by decide)
  · exact load_config_structural_validation.2.2.1 "c.json" _ [] (by decide) rfl
  · exact load_config_structural_validation.2.2.2.1 "c.json" _ (by decide) rfl
  · exact (load_config_structural_validation.2.2.2.2.1 "c.json"
      [("source", .str "in.mp3"),
       ("segments", .arr [.obj [("start", .str "0"), ("end", .str "1"), ("output", .str "a")],
                          .obj [("start", .str "0"), ("end", .str "1")]])]
      [.obj [("start", .str "0"), ("end", .str "1"), ("output", .str "a")]]
      (.obj [("start", .str "0"), ("end", .str "1")]) [] (by decide) rfl
      (by intro x hx; rw [List.mem_singleton] at hx; subst hx; decide)).2.2
      (by decide) (by decide) (by decide)
  · exact (load_config_structural_validation.2.2.2.2.2
      ⟨["mp3_cut.py", "c.json"], .missing, .resolved "ff",
        ⟨fun _ => true, fun _ => .ran ⟨0, "", ""⟩, fun _ => ""⟩⟩
      (.fileNotFound "Config file not found: c.json") rfl).1
  · exact (load_config_structural_validation.2.2.2.2.2
      ⟨["mp3_cut.py", "c.json"], .missing, .resolved "ff",
        ⟨fun _ => true, fun _ => .ran ⟨0, "", ""⟩, fun _ => ""⟩⟩
      (.fileNotFound "Config file not found: c.json") rfl).2

/-! ## Orchestrator lemmas -/

lemma lookupLast_isSome_of_any {fs : List (String × JValue)} {k : String}
    (h : fs.any (fun q => q.1 == k) = true) : ∃ v, lookupLast fs k = some v := by
  rw [List.any_eq_true] at h
  obtain ⟨q, hq, hpq⟩ := h
  have hfind : ∃ x, fs.reverse.find? (fun q => q.1 == k) = some x := by
    rw [← Option.isSome_iff_exists, List.find?_isSome]
    exact ⟨q, List.mem_reverse.mpr hq, hpq⟩
  obtain ⟨x, hx⟩ := hfind
  exact ⟨x.2, by simp [lookupLast, hx]⟩

lemma load_config_ok_inv {cf : ConfigFile} {p : String} {config : JValue}
    (h : load_config cf p = .ok config) :
    ∃ fs, cf = .parsed config ∧ config = .obj fs ∧
      (∃ srcv, pySubscript config "source" = .ok srcv) ∧
      ∃ segs, pySubscript config "segments" = .ok (.arr segs) ∧ segs ≠ [] := by
  cases cf with
  | missing => simp [load_config] at h
  | invalidJson m => simp [load_config] at h
  | parsed doc =>
    simp only [load_config] at h
    split at h
    · simp at h
    · simp at h
    · rename_i h1
      split at h
      · simp at h
      · simp at h
      · rename_i h2
        split at h
        · simp at h
        · rename_i segsV h3
          split at h
          · rename_i segs
            split at h
            · simp at h
            · rename_i hlen
              split at h
              · simp at h
              · rename_i u h4
                simp only [Except.ok.injEq] at h
                subst h
                cases doc with
                | obj fs =>
                  simp only [pyContains, Except.ok.injEq] at h1
                  obtain ⟨v, hv⟩ := lookupLast_isSome_of_any h1
                  refine ⟨fs, rfl, rfl, ⟨v, by simp [pySubscript, hv]⟩,
                    segs, h3, fun hc => hlen (by rw [hc]; rfl)⟩
                | str s => simp [pySubscript] at h3
                | num q => simp [pySubscript] at h3
                | bool b => simp [pySubscript] at h3
                | null => simp [pySubscript] at h3
                | arr xs => simp [pySubscript] at h3
          · simp at h

lemma callsOf_append (a b : Trace) : callsOf (a ++ b) = callsOf a ++ callsOf b :=
  List.filterMap_append a b _

lemma callsOf_print (s : String) (tr : Trace) :
    callsOf (Event.print s :: tr) = callsOf tr := by
  simp [callsOf]

lemma processLoop_sum (w : World) (exe src : String) (total : Nat) (segs : List JValue) :
    ∀ i, (processLoop w exe src total i segs).1 + (processLoop w exe src total i segs).2.1
      = segs.length := by
  induction segs with
  | nil => intro i; simp [processLoop]
  | cons seg rest ih =>
    intro i
    have hr := ih (i + 1)
    cases hb : (segStep w exe src seg).1 <;> simp [processLoop, hb] <;> omega

lemma process_completes {w : World} {config : JValue} {exe src : String} {segs : List JValue}
    (h1 : pySubscript config "source" = .ok (.str src))
    (h2 : pySubscript config "segments" = .ok (.arr segs))
    (h3 : w.fsExists src = true) :
    ∃ s f tr, process_segments w config exe = (.completed s f, tr) ∧ s + f = segs.length := by
  refine ⟨(processLoop w exe src segs.length 1 segs).1,
    (processLoop w exe src segs.length 1 segs).2.1, ?_, ?_, ?_⟩
  · exact [Event.print ("Source: " ++ src),
      Event.print ("Total segments: " ++ toString segs.length ++ "\n")]
      ++ (processLoop w exe src segs.length 1 segs).2.2
      ++ [Event.print sepLine,
          Event.print ("Completed: " ++ toString (processLoop w exe src segs.length 1 segs).1
            ++ " succeeded, " ++ toString (processLoop w exe src segs.length 1 segs).2.1
            ++ " failed"),
          Event.print sepLine]
  · simp [process_segments, h1, h2, h3]
  · exact processLoop_sum w exe src segs.length segs 1

lemma cut_segment_calls (w : World) (exe src : String) (s e : PyFloat) (out : JValue) :
    ∀ c ∈ callsOf (cut_segment w exe src s e out).2,
      ∃ o : String, c = ⟨buildCmd exe src (w.fmt s) (w.fmt e) o, true, true⟩ := by
  intro c hc
  cases out with
  | str o =>
    simp only [cut_segment, cut_segment_try] at hc
    cases hr : w.runProcess (buildCmd exe src (w.fmt s) (w.fmt e) o) with
    | raiseExn msg => simp [hr, callsOf] at hc
    | ran r =>
      simp only [hr] at hc
      by_cases hrc : r.returncode ≠ 0
      · rw [if_pos hrc] at hc
        simp [callsOf] at hc
        exact ⟨o, by rw [hc]⟩
      · rw [if_neg hrc] at hc
        simp [callsOf] at hc
        exact ⟨o, by rw [hc]⟩
  | num q => simp [cut_segment, cut_segment_try, callsOf] at hc
  | bool b => simp [cut_segment, cut_segment_try, callsOf] at hc
  | null => simp [cut_segment, cut_segment_try, callsOf] at hc
  | arr xs => simp [cut_segment, cut_segment_try, callsOf] at hc
  | obj fs => simp [cut_segment, cut_segment_try, callsOf] at hc

lemma segIterBody_ok_calls {w : World} {exe src : String} {seg : JValue}
    {res : Bool × Trace} (h : segIterBody w exe src seg = .ok res) :
    ∀ c ∈ callsOf res.2,
      ∃ (s e : PyFloat) (o : String), c = ⟨buildCmd exe src (w.fmt s) (w.fmt e) o, true, true⟩ := by
  simp only [segIterBody] at h
  split at h
  · simp at h
  · split at h
    · simp at h
    · split at h
      · simp at h
      · split at h
        · simp at h
        · split at h
          · simp only [Except.ok.injEq] at h
            subst h
            intro c hc
            simp [callsOf] at hc
          · split at h
            · simp at h
            · simp only [Except.ok.injEq] at h
              subst h
              intro c hc
              obtain ⟨o, ho⟩ := cut_segment_calls w exe src _ _ _ c hc
              exact ⟨_, _, o, ho⟩

lemma segStep_calls (w : World) (exe src : String) (seg : JValue) :
    ∀ c ∈ callsOf (segStep w exe src seg).2,
      ∃ (s e : PyFloat) (o : String), c = ⟨buildCmd exe src (w.fmt s) (w.fmt e) o, true, true⟩ := by
  intro c hc
  unfold segStep at hc
  cases hsb : segIterBody w exe src seg with
  | ok res =>
    rw [hsb] at hc
    exact segIterBody_ok_calls hsb c hc
  | error e =>
    rw [hsb] at hc
    cases e <;> simp [callsOf] at hc

lemma processLoop_calls (w : World) (exe src : String) (total : Nat) (segs : List JValue) :
    ∀ (i : Nat) (c : SubprocessCall),
      c ∈ callsOf (processLoop w exe src total i segs).2.2 →
      ∃ (s e : PyFloat) (o : String), c = ⟨buildCmd exe src (w.fmt s) (w.fmt e) o, true, true⟩ := by
  induction segs with
  | nil => intro i c hc; simp [processLoop, callsOf] at hc
  | cons seg rest ih =>
    intro i c hc
    simp only [processLoop, List.cons_append] at hc
    rw [callsOf_print, callsOf_append, callsOf_append] at hc
    rw [List.mem_append, List.mem_append] at hc
    rcases hc with (hc | hc) | hc
    · exact segStep_calls w exe src seg c hc
    · simp [callsOf] at hc
    · exact ih (i + 1) c hc

lemma process_segments_calls (w : World) (config : JValue) (exe : String) :
    ∀ c ∈ callsOf (process_segments w config exe).2,
      ∃ (src : String) (s e : PyFloat) (o : String),
        c = ⟨buildCmd exe src (w.fmt s) (w.fmt e) o, true, true⟩ := by
  intro c hc
  simp only [process_segments] at hc
  split at hc
  · simp [callsOf] at hc
  · split at hc
    · simp [callsOf] at hc
    · split at hc
      · split at hc
        · simp [callsOf] at hc
        · split at hc
          · simp only [List.cons_append] at hc
            rw [callsOf_print, callsOf_print, callsOf_append] at hc
            rw [List.mem_append] at hc
            rcases hc with hc | hc
            · obtain ⟨s, e, o, ho⟩ := processLoop_calls w exe _ _ _ 1 c hc
              exact ⟨_, s, e, o, ho⟩
            · simp [callsOf] at hc
          · simp [callsOf] at hc
      · simp [callsOf] at hc

/-! ## Test fixtures -/

/-- An environment whose file system has every path and whose subprocess
always succeeds; numbers render as a fixed token. -/
def wOk : World := ⟨fun _ => true, fun _ => .ran ⟨0, "", ""⟩, fun _ => "t"⟩

/-- A segment document with the three required fields. -/
def mkSeg (s e o : String) : JValue :=
  .obj [("start", .str s), ("end", .str e), ("output", .str o)]

/-- The three-segment batch of the specification's example: segment 2 has
an unparsable `start`. -/
def cfgBatch3 : JValue :=
  .obj [("source", .str "in.mp3"),
        ("segments", .arr [mkSeg "0" "10" "a.mp3", mkSeg "xx" "5" "b.mp3",
                           mkSeg "20" "30" "c.mp3"])]

/-- The `main`-level environment for the three-segment batch. -/
def mwBatch3 : MainWorld :=
  ⟨["mp3_cut.py", "cfg.json"], .parsed cfgBatch3, .resolved "ff", wOk⟩

/-- A two-segment batch: one valid segment and one with an inverted range. -/
def cfgBatch2 : JValue :=
  .obj [("source", .str "in.mp3"),
        ("segments", .arr [mkSeg "0" "10" "a.mp3", mkSeg "00:10" "00:05" "b.mp3"])]

/-! ## Claims about the orchestrator -/

/-- C5: a segment whose parsed `start` is greater than or equal to its
parsed `end` is counted as one failure with the invalid-range diagnostic,
the external binary is not invoked for it, and the loop continues with the
remaining segments' tallies unchanged. -/
theorem range_check_rejects :
    ∀ (w : World) (exe src : String) (seg sv ev : JValue) (s e : PyFloat),
      pySubscript seg "start" = .ok sv →
      parse_time_to_seconds w.fmt sv = .ok s →
      pySubscript seg "end" = .ok ev →
      parse_time_to_seconds w.fmt ev = .ok e →
      e ≤ s →
      segStep w exe src seg
          = (false, [.print ("  ✗ Invalid time range: start (" ++ w.fmt s ++ "s) >= end ("
              ++ w.fmt e ++ "s)")])
        ∧ callsOf (segStep w exe src seg).2 = []
        ∧ ∀ (total i : Nat) (rest : List JValue),
            (processLoop w exe src total i (seg :: rest)).1
                = (processLoop w exe src total (i + 1) rest).1
              ∧ (processLoop w exe src total i (seg :: rest)).2.1
                = (processLoop w exe src total (i + 1) rest).2.1 + 1 := by
  intro w exe src seg sv ev s e h1 h2 h3 h4 hle
  have hbody : segIterBody w exe src seg
      = .ok (false, [.print ("  ✗ Invalid time range: start (" ++ w.fmt s ++ "s) >= end ("
          ++ w.fmt e ++ "s)")]) := by
    simp [segIterBody, h1, h2, h3, h4, hle]
  have hstep : segStep w exe src seg
      = (false, [.print ("  ✗ Invalid time range: start (" ++ w.fmt s ++ "s) >= end ("
          ++ w.fmt e ++ "s)")]) := by
    simp [segStep, hbody]
  refine ⟨hstep, by simp [hstep, callsOf], ?_⟩
  intro total i rest
  constructor
  · simp [processLoop, hstep]
  · simp [processLoop, hstep]
    omega

/-- Witness for `range_check_rejects`: the spec's `00:10`/`00:05` segment. -/
theorem range_check_rejects_witness :
    (segStep wOk "ff" "in.mp3" (mkSeg "00:10" "00:05" "o.mp3")).1 = false
  ∧ callsOf (segStep wOk "ff" "in.mp3" (mkSeg "00:10" "00:05" "o.mp3")).2 = [] := by
  have h := range_check_rejects wOk "ff" "in.mp3" (mkSeg "00:10" "00:05" "o.mp3")
    (.str "00:10") (.str "00:05") 10 5 rfl (by decide) rfl (by decide) (by decide)
  exact ⟨by rw [h.1], h.2.1⟩

/-- C6: when the configuration loaded but the `source` path does not exist,
`process_segments` exits with code 1 after a single diagnostic line, the
whole run exits with code 1, and no subprocess is spawned (no segment is
attempted). -/
theorem missing_source_preflight :
    ∀ (mw : MainWorld) (config : JValue) (src exe : String),
      mw.argv.length = 2 →
      load_config mw.configFile ((mw.argv.get? 1).getD "") = .ok config →
      pySubscript config "source" = .ok (.str src) →
      get_ffmpeg_executable mw.ffmpeg = .ok exe →
      mw.world.fsExists src = false →
      process_segments mw.world config exe
          = (.sysExit 1, [.print ("Error: Source file not found: " ++ src)])
        ∧ (main mw).1 = 1
        ∧ callsOf (main mw).2 = [] := by
  intro mw config src exe hargv hload hsrc hff hfs
  obtain ⟨fs, hcf, hobj, ⟨srcv, hsv⟩, segs, hsegs, hne⟩ := load_config_ok_inv hload
  have hproc : process_segments mw.world config exe
      = (.sysExit 1, [.print ("Error: Source file not found: " ++ src)]) := by
    simp [process_segments, hsrc, hsegs, hfs]
  have hargv2 : ¬(mw.argv.length ≠ 2) := by omega
  simp only [List.get?_eq_getElem?] at hload
  refine ⟨hproc, ?_, ?_⟩
  · simp [main, hargv2, hload, hff, hproc]
  · simp [main, hargv2, hload, hff, hproc, callsOf]

/-- Witness for `missing_source_preflight` at a concrete environment. -/
theorem missing_source_preflight_witness :
    process_segments ⟨fun _ => false, fun _ => .ran ⟨0, "", ""⟩, fun _ => "t"⟩ cfgBatch3 "ff"
        = (.sysExit 1, [.print "Error: Source file not found: in.mp3"])
      ∧ (main ⟨["mp3_cut.py", "cfg.json"], .parsed cfgBatch3, .resolved "ff",
          ⟨fun _ => false, fun _ => .ran ⟨0, "", ""⟩, fun _ => "t"⟩⟩).1 = 1
      ∧ callsOf (main ⟨["mp3_cut.py", "cfg.json"], .parsed cfgBatch3, .resolved "ff",
          ⟨fun _ => false, fun _ => .ran ⟨0, "", ""⟩, fun _ => "t"⟩⟩).2 = [] :=
  missing_source_preflight
    ⟨["mp3_cut.py", "cfg.json"], .parsed cfgBatch3, .resolved "ff",
      ⟨fun _ => false, fun _ => .ran ⟨0, "", ""⟩, fun _ => "t"⟩⟩
    cfgBatch3 "in.mp3" "ff" rfl rfl rfl rfl rfl

/-- C10: for every run that passes pre-flight, each loop iteration
increments exactly one of the two counters by one, and at completion
`succeeded + failed` equals the number of segments. -/
theorem counters_conserved :
    ∀ (w : World) (config : JValue) (exe src : String) (segs : List JValue),
      pySubscript config "source" = .ok (.str src) →
      pySubscript config "segments" = .ok (.arr segs) →
      w.fsExists src = true →
      (∃ s f tr, process_segments w config exe = (.completed s f, tr) ∧ s + f = segs.length)
      ∧ ∀ (total i : Nat) (seg : JValue) (rest : List JValue),
          ((processLoop w exe src total i (seg :: rest)).1
              = (processLoop w exe src total (i + 1) rest).1 + 1
            ∧ (processLoop w exe src total i (seg :: rest)).2.1
              = (processLoop w exe src total (i + 1) rest).2.1)
          ∨ ((processLoop w exe src total i (seg :: rest)).1
              = (processLoop w exe src total (i + 1) rest).1
            ∧ (processLoop w exe src total i (seg :: rest)).2.1
              = (processLoop w exe src total (i + 1) rest).2.1 + 1) := by
  intro w config exe src segs h1 h2 h3
  refine ⟨process_completes h1 h2 h3, ?_⟩
  intro total i seg rest
  cases hb : (segStep w exe src seg).1
  · right
    constructor <;> simp [processLoop, hb] <;> omega
  · left
    constructor <;> simp [processLoop, hb] <;> omega

/-- Witness for `counters_conserved` on a concrete two-segment batch. -/
theorem counters_conserved_witness :
    ∃ s f tr, process_segments wOk cfgBatch2 "ff" = (.completed s f, tr) ∧ s + f = 2 :=
  (counters_conserved wOk cfgBatch2 "ff" "in.mp3"
    [mkSeg "0" "10" "a.mp3", mkSeg "00:10" "00:05" "b.mp3"] rfl rfl rfl).1

/-- C1: for every configuration that passes pre-flight the loop always
runs to completion — every per-segment failure is caught and counted, and
the loop proceeds — and on the spec's example (3 segments, segment 2 with
unparsable `start`, executor succeeding otherwise) the run ends with
`succeeded = 2`, `failed = 1` and process exit code 0. -/
theorem per_segment_failure_isolation :
    (∀ (w : World) (config : JValue) (exe src : String) (segs : List JValue),
        pySubscript config "source" = .ok (.str src) →
        pySubscript config "segments" = .ok (.arr segs) →
        w.fsExists src = true →
        ∃ s f tr, process_segments w config exe = (.completed s f, tr) ∧ s + f = segs.length)
  ∧ (process_segments wOk cfgBatch3 "ff").1 = .completed 2 1
  ∧ (main mwBatch3).1 = 0 := by
  refine ⟨?_, by decide, by decide⟩
  intro w config exe src segs h1 h2 h3
  exact process_completes h1 h2 h3

/-- Witness for `per_segment_failure_isolation` on the three-segment batch. -/
theorem per_segment_failure_isolation_witness :
    ∃ s f tr, process_segments wOk cfgBatch3 "ff" = (.completed s f, tr) ∧ s + f = 3 :=
  per_segment_failure_isolation.1 wOk cfgBatch3 "ff" "in.mp3"
    [mkSeg "0" "10" "a.mp3", mkSeg "xx" "5" "b.mp3", mkSeg "20" "30" "c.mp3"] rfl rfl rfl

/-! ## Claims about negative offsets, the executor and its arguments -/

lemma pyLt_not_pyLe {a b : PyFloat} (h : pyLt a b = true) : pyLe b a = false := by
  cases a with
  | nan => cases b <;> simp [pyLt] at h
  | inf sa =>
    cases b with
    | nan => simp [pyLt] at h
    | inf sb => cases sa <;> cases sb <;> simp_all [pyLt, pyLe]
    | finite qb => cases sa <;> simp_all [pyLt, pyLe]
  | finite qa =>
    cases b with
    | nan => simp [pyLt] at h
    | inf sb => cases sb <;> simp_all [pyLt, pyLe]
    | finite qb =>
      simp only [pyLt, decide_eq_true_eq] at h
      simp only [pyLe, decide_eq_false_iff_not]
      exact not_le.mpr h

/-- C7 counterexample: negative offsets are accepted by the parser, and a
segment with `start = "-10"`, `end = "-5"` — both negative — passes the
range validation and invokes the external binary, so negative offsets are
not rejected by the range validation step. -/
theorem negative_offsets_counterexample :
    parse_time_to_seconds wOk.fmt (.str "-10") = .ok (-10)
  ∧ parse_time_to_seconds wOk.fmt (.str "-5") = .ok (-5)
  ∧ ((-10 : Rat) < 0 ∧ (-5 : Rat) < 0)
  ∧ (segStep wOk "ff" "in.mp3" (mkSeg "-10" "-5" "neg.mp3")).1 = true
  ∧ callsOf (segStep wOk "ff" "in.mp3" (mkSeg "-10" "-5" "neg.mp3")).2
      = [⟨["ff", "-ss", "t", "-to", "t", "-i", "in.mp3",
           "-map_metadata", "-1", "-vn", "-c", "copy", "-y", "neg.mp3"], true, true⟩] := by
  exact ⟨by decide, by decide, ⟨by decide, by decide⟩, by decide, by decide⟩

/-- C7 (amended): negative time offsets are syntactically accepted by the
time parser; the only later check involving them is the `start >= end`
range validation, which rejects a segment exactly when `start >= end` —
so a negative-offset segment with `start < end` is not rejected but goes
to the executor. -/
theorem negative_offsets_amended :
    (∀ (fmt : PyFloat → String) (s : String) (v : PyFloat),
        parseFloatChars (trimChars s.toList) = some v → v < 0 →
        parse_time_to_seconds fmt (.str s) = .ok v)
  ∧ (∀ (w : World) (exe src : String) (seg sv ev ov : JValue) (s e : PyFloat),
        pySubscript seg "start" = .ok sv → parse_time_to_seconds w.fmt sv = .ok s →
        pySubscript seg "end" = .ok ev → parse_time_to_seconds w.fmt ev = .ok e →
        pySubscript seg "output" = .ok ov →
        (s < e → segStep w exe src seg = cut_segment w exe src s e ov)
        ∧ (e ≤ s → segStep w exe src seg
            = (false, [.print ("  ✗ Invalid time range: start (" ++ w.fmt s ++ "s) >= end ("
                ++ w.fmt e ++ "s)")]))) := by
  constructor
  · intro fmt s v h hneg
    simp only [String.toList] at h
    simp [parse_time_to_seconds, pyStrOfJ, h]
  · intro w exe src seg sv ev ov s e h1 h2 h3 h4 h5
    constructor
    · intro hlt
      have hnle : ¬(e ≤ s) := by
        intro hle
        have h1 : pyLe e s = true := hle
        rw [pyLt_not_pyLe (a := s) (b := e) hlt] at h1
        exact absurd h1 (by decide)
      have hbody : segIterBody w exe src seg = .ok (cut_segment w exe src s e ov) := by
        simp [segIterBody, h1, h2, h3, h4, h5, hnle]
      simp [segStep, hbody]
    · intro hle
      have hbody : segIterBody w exe src seg
          = .ok (false, [.print ("  ✗ Invalid time range: start (" ++ w.fmt s ++ "s) >= end ("
              ++ w.fmt e ++ "s)")]) := by
        simp [segIterBody, h1, h2, h3, h4, hle]
      simp [segStep, hbody]

/-- Witness for `negative_offsets_amended`: `-10` parses negative, and the
`-10`/`-5` segment reaches the executor. -/
theorem negative_offsets_amended_witness :
    parse_time_to_seconds wOk.fmt (.str "-10") = .ok (-10)
  ∧ segStep wOk "ff" "in.mp3" (mkSeg "-10" "-5" "neg.mp3")
      = cut_segment wOk "ff" "in.mp3" (-10) (-5) (.str "neg.mp3") :=
  ⟨negative_offsets_amended.1 wOk.fmt "-10" (-10) (by decide) (by decide),
   (negative_offsets_amended.2 wOk "ff" "in.mp3" (mkSeg "-10" "-5" "neg.mp3")
      (.str "-10") (.str "-5") (.str "neg.mp3") (-10) (-5)
      rfl (by decide) rfl (by decide) rfl).1 (by decide)⟩

/-- C8: `cut_segment` never propagates a fault to its caller: a non-zero
exit status yields a `False` result with the captured stderr in the
diagnostic, a launch failure yields a `False` result, and every error of
the `try` body is converted by the catch-all handler into a `False`
result. -/
theorem cut_segment_never_raises :
    ∀ (w : World) (exe src : String) (s e : PyFloat) (o : String),
      (∀ msg, w.runProcess (buildCmd exe src (w.fmt s) (w.fmt e) o) = .raiseExn msg →
        cut_segment w exe src s e (.str o)
          = (false, [.print (processingLine w.fmt (.str o) s e),
                     .print ("  ✗ Exception occurred: " ++ msg)]))
      ∧ (∀ r, w.runProcess (buildCmd exe src (w.fmt s) (w.fmt e) o) = .ran r →
          r.returncode ≠ 0 →
          cut_segment w exe src s e (.str o)
            = (false, [.print (processingLine w.fmt (.str o) s e),
                       .spawn ⟨buildCmd exe src (w.fmt s) (w.fmt e) o, true, true⟩,
                       .print ("  ✗ Failed to cut segment: " ++ o),
                       .print ("    Error: " ++ r.stderr)]))
      ∧ (∀ (out : JValue) (err : PyErr) (tr : Trace),
          cut_segment_try w exe src s e out = (.error err, tr) →
          cut_segment w exe src s e out
            = (false, tr ++ [.print ("  ✗ Exception occurred: " ++ pyErrStr err)])) := by
  intro w exe src s e o
  refine ⟨?_, ?_, ?_⟩
  · intro msg hr
    simp [cut_segment, cut_segment_try, hr, pyErrStr]
  · intro r hr hrc
    simp [cut_segment, cut_segment_try, hr, hrc]
  · intro out err tr htry
    simp [cut_segment, htry]

/-- Witness for `cut_segment_never_raises`: a run whose subprocess exits 1
with stderr text `boom`. -/
theorem cut_segment_never_raises_witness :
    cut_segment ⟨fun _ => true, fun _ => .ran ⟨1, "", "boom"⟩, fun _ => "t"⟩
        "ff" "in.mp3" 0 1 (.str "o.mp3")
      = (false, [.print (processingLine (fun _ => "t") (.str "o.mp3") 0 1),
                 .spawn ⟨buildCmd "ff" "in.mp3" "t" "t" "o.mp3", true, true⟩,
                 .print "  ✗ Failed to cut segment: o.mp3",
                 .print "    Error: boom"]) :=
  (cut_segment_never_raises ⟨fun _ => true, fun _ => .ran ⟨1, "", "boom"⟩, fun _ => "t"⟩
    "ff" "in.mp3" 0 1 "o.mp3").2.1 ⟨1, "", "boom"⟩ rfl (by decide)

/-- C9: every subprocess spawn uses exactly the fixed argument template —
seek-start, seek-end, input, metadata-strip, video-disable, stream-copy,
overwrite, output path, in that order — with stdout and stderr captured;
and when the process runs, `cut_segment` spawns it exactly once. -/
theorem ffmpeg_argument_template :
    ∀ (w : World) (exe src : String) (s e : PyFloat) (o : String),
      (∀ r, w.runProcess (buildCmd exe src (w.fmt s) (w.fmt e) o) = .ran r →
        callsOf (cut_segment w exe src s e (.str o)).2
          = [⟨[exe, "-ss", w.fmt s, "-to", w.fmt e, "-i", src,
               "-map_metadata", "-1", "-vn", "-c", "copy", "-y", o], true, true⟩])
      ∧ (∀ (config : JValue) (c : SubprocessCall),
          c ∈ callsOf (process_segments w config exe).2 →
          ∃ (src2 : String) (st en : PyFloat) (o2 : String),
            c = ⟨[exe, "-ss", w.fmt st, "-to", w.fmt en, "-i", src2,
                  "-map_metadata", "-1", "-vn", "-c", "copy", "-y", o2], true, true⟩
            ∧ c.captureStdout = true ∧ c.captureStderr = true) := by
  intro w exe src s e o
  constructor
  · intro r hr
    simp only [buildCmd] at hr
    by_cases hrc : r.returncode = 0
    · simp [cut_segment, cut_segment_try, buildCmd, hr, hrc, callsOf]
    · simp [cut_segment, cut_segment_try, buildCmd, hr, hrc, callsOf]
  · intro config c hc
    obtain ⟨src2, st, en, o2, ho⟩ := process_segments_calls w config exe c hc
    exact ⟨src2, st, en, o2, by rw [ho]; rfl, by rw [ho], by rw [ho]⟩

/-- Witness for `ffmpeg_argument_template` on a concrete successful cut. -/
theorem ffmpeg_argument_template_witness :
    callsOf (cut_segment wOk "ff" "in.mp3" 0 1 (.str "o.mp3")).2
      = [⟨["ff", "-ss", wOk.fmt 0, "-to", wOk.fmt 1, "-i", "in.mp3",
           "-map_metadata", "-1", "-vn", "-c", "copy", "-y", "o.mp3"], true, true⟩] :=
  (ffmpeg_argument_template wOk "ff" "in.mp3" 0 1 "o.mp3").1 ⟨0, "", ""⟩ rfl

end MP3Cut
